import Mathlib

/-!
Verification of the Hemingway core against its specification.

This file gives a shallow embedding of the three specified subsystems of the
Hemingway repository — the provider adapter (src/models/client.ts), the
bounded tool-calling execution loop (the base agent class), and the two-stage
intent classifier (src/core/samantha.ts) — and proves or refutes the frozen
claims about them.

Modelling conventions:
* JavaScript strings are Lean `String` / `List Char`; `toLowerCase` is an
  ASCII lowering (the repository only compares ASCII keyword lists).
* JSON values (`Record<string, unknown>` payloads, JSON.stringify/JSON.parse)
  are modelled by the inductive `Json` below together with an executable
  printer and parser; the number leaf carries an `Int` (float-specific
  behaviour is irrelevant to every claim, which treat numbers as opaque data).
* Exceptions are modelled with `Except String`: a thrown error carries its
  `.message` string.
* Asynchrony is erased: an awaited provider call becomes a call into an
  explicit oracle `Nat → Except String CompletionResponse` giving the
  response (or thrown error) of each successive completion request, and a
  stream becomes the list of text fragments it yields.
* `Date` timestamps and uuid message ids are provenance-only in the source
  (never read by the specified components), so `Message` omits them.
-/

/-! ## Generic string helpers (models of the JavaScript primitives used) -/

/-- Model of ASCII `toLowerCase` on a single character. -/
def asciiLowerChar (c : Char) : Char :=
  if 'A' ≤ c ∧ c ≤ 'Z' then Char.ofNat (c.toNat + 32) else c

/-- Model of `String.prototype.toLowerCase` (ASCII range). -/
def asciiLower (cs : List Char) : List Char :=
  cs.map asciiLowerChar

/-- Model of `String.prototype.includes`: `needle` occurs contiguously in `hay`. -/
def listContains (hay needle : List Char) : Bool :=
  needle.isPrefixOf hay ||
    match hay with
    | [] => false
    | _ :: t => listContains t needle

/-- Model of `a || b` for an optional string `a` (JS falsiness of `undefined` and `""`). -/
def jsOr (a : Option String) (b : String) : String :=
  match a with
  | none => b
  | some s => if s = "" then b else s

/-- Model of `String.prototype.trim`. -/
def trimChars (cs : List Char) : List Char :=
  ((cs.dropWhile Char.isWhitespace).reverse.dropWhile Char.isWhitespace).reverse

/-! ## JSON values

Model of the JSON data manipulated by the adapter and the classifier:
tool-call argument payloads (`Record<string, unknown>`), the output of
`JSON.stringify` and the input of `JSON.parse`. -/

inductive Json where
  | null : Json
  | bool (b : Bool) : Json
  | num (n : Int) : Json
  | str (s : String) : Json
  | arr (elems : List Json) : Json
  | obj (fields : List (String × Json)) : Json
deriving Repr

/-- Character of a decimal digit. -/
def digitChar (d : Nat) : Char := Char.ofNat (48 + d)

/-- Numeric value of a decimal digit character. -/
def digitVal (c : Char) : Nat := c.toNat - 48

/-- Decimal rendering of a natural number, most significant digit first. -/
def printNat (n : Nat) : List Char :=
  if n = 0 then ['0'] else (Nat.digits 10 n).reverse.map digitChar

/-- Decimal rendering of an integer (model of JSON number serialization). -/
def printInt : Int → List Char
  | .ofNat n => printNat n
  | .negSucc m => '-' :: printNat (m + 1)

/-- String-body escaping done by `JSON.stringify`: backslash and double quote
are escaped, other characters are emitted verbatim. -/
def escapeChars : List Char → List Char
  | [] => []
  | c :: t =>
    if c = '"' then '\\' :: '"' :: escapeChars t
    else if c = '\\' then '\\' :: '\\' :: escapeChars t
    else c :: escapeChars t

mutual

/-- Model of `JSON.stringify` (default formatting: no whitespace, object key
order preserved), producing the serialized character list. -/
def printJson : Json → List Char
  | .null => "null".data
  | .bool true => "true".data
  | .bool false => "false".data
  | .num i => printInt i
  | .str s => '"' :: escapeChars s.data ++ ['"']
  | .arr xs => '[' :: printElems xs
  | .obj fs => '{' :: printFields fs

/-- Serialization of array elements, including the closing bracket. -/
def printElems : List Json → List Char
  | [] => [']']
  | [x] => printJson x ++ [']']
  | x :: y :: t => printJson x ++ ',' :: printElems (y :: t)

/-- Serialization of object fields, including the closing brace. -/
def printFields : List (String × Json) → List Char
  | [] => ['}']
  | [(k, v)] => '"' :: escapeChars k.data ++ '"' :: ':' :: printJson v ++ ['}']
  | (k, v) :: kv :: t =>
      '"' :: escapeChars k.data ++ '"' :: ':' :: printJson v ++ ',' :: printFields (kv :: t)

end

/-- String form of `JSON.stringify`. -/
def jsonStringify (v : Json) : String := ⟨printJson v⟩

/-- Parse the body of a JSON string literal after the opening quote; returns
the unescaped content and the remainder after the closing quote. -/
def parseStrBody : List Char → Option (List Char × List Char)
  | [] => none
  | c :: rest =>
    if c = '"' then some ([], rest)
    else if c = '\\' then
      match rest with
      | [] => none
      | c2 :: rest2 =>
        if c2 = '"' ∨ c2 = '\\' then
          (parseStrBody rest2).map (fun p => (c2 :: p.1, p.2))
        else none
    else (parseStrBody rest).map (fun p => (c :: p.1, p.2))

/-- Parse a run of decimal digits into a natural number (fails on no digits). -/
def parseNatChars (cs : List Char) : Option (Nat × List Char) :=
  let ds := cs.takeWhile Char.isDigit
  if ds.isEmpty then none
  else some (Nat.ofDigits 10 ((ds.map digitVal).reverse), cs.dropWhile Char.isDigit)

mutual

/-- Fuel-indexed JSON value parser (model of `JSON.parse` on the grammar the
printer emits; lax about inputs the printer never produces). -/
def parseVal : Nat → List Char → Option (Json × List Char)
  | 0, _ => none
  | _ + 1, [] => none
  | fuel + 1, c :: cs =>
    if c.isDigit then
      match parseNatChars (c :: cs) with
      | some (n, r) => some (.num (n : Int), r)
      | none => none
    else if c = '-' then
      match parseNatChars cs with
      | some (n, r) => some (.num (-(n : Int)), r)
      | none => none
    else if c = '"' then
      match parseStrBody cs with
      | some (s, r) => some (.str ⟨s⟩, r)
      | none => none
    else if c = '[' then
      match parseElems fuel cs with
      | some (xs, r) => some (.arr xs, r)
      | none => none
    else if c = '{' then
      match parseFields fuel cs with
      | some (fs, r) => some (.obj fs, r)
      | none => none
    else
      match c :: cs with
      | 'n' :: 'u' :: 'l' :: 'l' :: rest => some (.null, rest)
      | 't' :: 'r' :: 'u' :: 'e' :: rest => some (.bool true, rest)
      | 'f' :: 'a' :: 'l' :: 's' :: 'e' :: rest => some (.bool false, rest)
      | _ => none

/-- Parse array elements after the opening bracket, consuming the closing one. -/
def parseElems : Nat → List Char → Option (List Json × List Char)
  | 0, _ => none
  | _ + 1, [] => none
  | fuel + 1, c :: cs =>
    if c = ']' then some ([], cs)
    else
      match parseVal fuel (c :: cs) with
      | some (v, ',' :: r2) =>
        match parseElems fuel r2 with
        | some (vs, r3) => some (v :: vs, r3)
        | none => none
      | some (v, ']' :: r2) => some ([v], r2)
      | some _ => none
      | none => none

/-- Parse object fields after the opening brace, consuming the closing one. -/
def parseFields : Nat → List Char → Option (List (String × Json) × List Char)
  | 0, _ => none
  | _ + 1, [] => none
  | fuel + 1, c :: cs =>
    if c = '}' then some ([], cs)
    else if c = '"' then
      match parseStrBody cs with
      | some (k, ':' :: r2) =>
        match parseVal fuel r2 with
        | some (v, ',' :: r3) =>
          match parseFields fuel r3 with
          | some (fs, r4) => some ((⟨k⟩, v) :: fs, r4)
          | none => none
        | some (v, '}' :: r3) => some ([(⟨k⟩, v)], r3)
        | some _ => none
        | none => none
      | _ => none
    else none

end

/-- Model of `JSON.parse`: the whole input must be consumed by one value
(otherwise `JSON.parse` throws, modelled as `none`). -/
def jsonParse (s : String) : Option Json :=
  match parseVal (s.data.length + 1) s.data with
  | some (v, []) => some v
  | _ => none

/-! ## Round trip of the JSON printer and parser -/

mutual

/-- Fuel sufficient for `parseVal` to parse the printed form of a value. -/
def needV : Json → Nat
  | .arr xs => needElems xs + 1
  | .obj fs => needFields fs + 1
  | _ => 1

/-- Fuel sufficient for `parseElems` on a printed element list. -/
def needElems : List Json → Nat
  | [] => 1
  | x :: t => max (needV x) (needElems t) + 1

/-- Fuel sufficient for `parseFields` on a printed field list. -/
def needFields : List (String × Json) → Nat
  | [] => 1
  | (_, v) :: t => max (needV v) (needFields t) + 1

end

/-- The input does not start with a decimal digit (so that a preceding number
literal cannot absorb it). -/
def noDigitHead : List Char → Prop
  | [] => True
  | c :: _ => c.isDigit = false

theorem parseStrBody_quote (rest : List Char) :
    parseStrBody ('"' :: rest) = some ([], rest) := by
  rw [parseStrBody.eq_def]
  simp

theorem parseStrBody_esc (c : Char) (rest : List Char) (h : c = '"' ∨ c = '\\') :
    parseStrBody ('\\' :: c :: rest) =
      (parseStrBody rest).map (fun p => (c :: p.1, p.2)) := by
  rw [parseStrBody.eq_def]
  simp [h]

theorem parseStrBody_other (c : Char) (rest : List Char) (h1 : ¬c = '"') (h2 : ¬c = '\\') :
    parseStrBody (c :: rest) = (parseStrBody rest).map (fun p => (c :: p.1, p.2)) := by
  rw [parseStrBody.eq_def]
  simp only [if_neg h1, if_neg h2]

theorem parseStrBody_escape (cs rest : List Char) :
    parseStrBody (escapeChars cs ++ '"' :: rest) = some (cs, rest) := by
  induction cs with
  | nil => simp [escapeChars, parseStrBody_quote]
  | cons c t ih =>
    by_cases hq : c = '"'
    · subst hq
      simp only [escapeChars, if_pos rfl, if_true, eq_self_iff_true, List.cons_append]
      rw [parseStrBody_esc _ _ (Or.inl rfl), ih]
      rfl
    · by_cases hb : c = '\\'
      · subst hb
        simp only [escapeChars, if_neg hq, if_pos rfl, if_true, eq_self_iff_true,
          List.cons_append]
        rw [parseStrBody_esc _ _ (Or.inr rfl), ih]
        rfl
      · simp only [escapeChars, if_neg hq, if_neg hb, List.cons_append]
        rw [parseStrBody_other c _ hq hb, ih]
        rfl

theorem isDigit_digitChar {d : Nat} (h : d < 10) : (digitChar d).isDigit = true := by
  interval_cases d <;> decide

theorem digitVal_digitChar {d : Nat} (h : d < 10) : digitVal (digitChar d) = d := by
  interval_cases d <;> decide

theorem printNat_all_digits (n : Nat) : ∀ c ∈ printNat n, c.isDigit = true := by
  intro c hc
  unfold printNat at hc
  by_cases h0 : n = 0
  · simp [h0] at hc
    subst hc; decide
  · simp [h0] at hc
    obtain ⟨d, hd, rfl⟩ := hc
    exact isDigit_digitChar (Nat.digits_lt_base (by norm_num) hd)

theorem printNat_ne_nil (n : Nat) : printNat n ≠ [] := by
  unfold printNat
  by_cases h0 : n = 0
  · simp [h0]
  · simp [h0, Nat.digits_ne_nil_iff_ne_zero.mpr h0]

theorem takeWhile_append_all {p : Char → Bool} {l1 l2 : List Char}
    (h1 : ∀ c ∈ l1, p c = true) (h3 : ∀ c, l2.head? = some c → p c = false) :
    (l1 ++ l2).takeWhile p = l1 ∧ (l1 ++ l2).dropWhile p = l2 := by
  induction l1 with
  | nil =>
    cases l2 with
    | nil => simp
    | cons c t =>
      have := h3 c rfl
      simp_all [List.takeWhile, List.dropWhile]
  | cons c t ih =>
    have hc : p c = true := h1 c (by simp)
    have ht : ∀ x ∈ t, p x = true := fun x hx => h1 x (by simp [hx])
    obtain ⟨ih1, ih2⟩ := ih ht
    simp [List.takeWhile, List.dropWhile, hc, ih1, ih2]

theorem parseNat_print (n : Nat) (rest : List Char) (hr : noDigitHead rest) :
    parseNatChars (printNat n ++ rest) = some (n, rest) := by
  have h3 : ∀ c, rest.head? = some c → c.isDigit = false := by
    cases rest with
    | nil => intro c hc; simp at hc
    | cons c t => intro x hx; simp at hx; subst hx; exact hr
  obtain ⟨htake, hdrop⟩ :=
    takeWhile_append_all (printNat_all_digits n) h3
  unfold parseNatChars
  rw [htake, hdrop]
  have hne : (printNat n).isEmpty = false := by
    cases h : printNat n with
    | nil => exact absurd h (printNat_ne_nil n)
    | cons c t => simp [List.isEmpty]
  simp only [hne, Bool.false_eq_true, if_false, Option.some.injEq, Prod.mk.injEq]
  refine ⟨?_, trivial⟩
  unfold printNat
  by_cases h0 : n = 0
  · simp [h0]; decide
  · simp only [h0, if_false]
    rw [List.map_map, List.map_reverse, List.reverse_reverse]
    have hmap : ((Nat.digits 10 n).map fun d => digitVal (digitChar d)) = Nat.digits 10 n := by
      conv_rhs => rw [← List.map_id (Nat.digits 10 n)]
      apply List.map_congr_left
      intro d hd
      simp [digitVal_digitChar (Nat.digits_lt_base (by norm_num) hd)]
    simp only [Function.comp_def, hmap, Nat.ofDigits_digits]

theorem printNat_head (n : Nat) :
    ∃ c t, printNat n = c :: t ∧ c.isDigit = true := by
  cases h : printNat n with
  | nil => exact absurd h (printNat_ne_nil n)
  | cons c t =>
    exact ⟨c, t, rfl, printNat_all_digits n c (h ▸ List.mem_cons_self c t)⟩

theorem one_le_needV (v : Json) : 1 ≤ needV v := by
  cases v <;> simp [needV]

theorem printJson_head (v : Json) :
    ∃ c t, printJson v = c :: t ∧ ¬c = ']' := by
  cases v with
  | null => exact ⟨'n', _, rfl, by decide⟩
  | bool b =>
    cases b with
    | false => exact ⟨'f', _, rfl, by decide⟩
    | true => exact ⟨'t', _, rfl, by decide⟩
  | num i =>
    cases i with
    | ofNat n =>
      obtain ⟨c, t, hct, hd⟩ := printNat_head n
      refine ⟨c, t, by simp [printJson, printInt, hct], ?_⟩
      intro hc
      subst hc
      simp at hd
    | negSucc m => exact ⟨'-', printNat (m + 1), by simp [printJson, printInt], by decide⟩
  | str s => exact ⟨'"', escapeChars s.data ++ ['"'], by simp [printJson], by decide⟩
  | arr xs => exact ⟨'[', printElems xs, by simp [printJson], by decide⟩
  | obj fs => exact ⟨'{', printFields fs, by simp [printJson], by decide⟩

theorem stringMk_data (s : String) : (⟨s.data⟩ : String) = s := rfl

mutual

theorem parseVal_print (v : Json) (rest : List Char) (fuel : Nat)
    (hf : needV v ≤ fuel) (hr : noDigitHead rest) :
    parseVal fuel (printJson v ++ rest) = some (v, rest) := by
  obtain ⟨f, rfl⟩ : ∃ f, fuel = f + 1 :=
    ⟨fuel - 1, by have := one_le_needV v; omega⟩
  cases v with
  | null =>
    have hl : printJson .null ++ rest = 'n' :: 'u' :: 'l' :: 'l' :: rest := rfl
    rw [hl, parseVal.eq_def]
    simp
  | bool b =>
    cases b with
    | true =>
      have hl : printJson (.bool true) ++ rest = 't' :: 'r' :: 'u' :: 'e' :: rest := rfl
      rw [hl, parseVal.eq_def]
      simp
    | false =>
      have hl : printJson (.bool false) ++ rest = 'f' :: 'a' :: 'l' :: 's' :: 'e' :: rest := rfl
      rw [hl, parseVal.eq_def]
      simp
  | num i =>
    cases i with
    | ofNat n =>
      obtain ⟨c, t, hct, hd⟩ := printNat_head n
      have hsplit : printJson (.num (.ofNat n)) ++ rest = c :: (t ++ rest) := by
        simp [printJson, printInt, hct]
      rw [hsplit, parseVal.eq_def]
      simp only [hd, if_true]
      have hback : c :: (t ++ rest) = printNat n ++ rest := by
        rw [hct]; simp
      rw [hback, parseNat_print n rest hr]
      simp
    | negSucc m =>
      have hsplit : printJson (.num (.negSucc m)) ++ rest = '-' :: (printNat (m + 1) ++ rest) := by
        simp [printJson, printInt]
      rw [hsplit, parseVal.eq_def]
      simp only [show ('-'.isDigit) = false from rfl, Bool.false_eq_true, if_false,
        if_pos rfl]
      rw [parseNat_print (m + 1) rest hr]
      simp [Int.negSucc_eq]
  | str s =>
    have hsplit : printJson (.str s) ++ rest = '"' :: (escapeChars s.data ++ '"' :: rest) := by
      simp [printJson]
    rw [hsplit, parseVal.eq_def]
    simp only [show ('"'.isDigit) = false from rfl, Bool.false_eq_true, if_false,
      show ('"' = '-') = False by simp, if_pos rfl]
    rw [parseStrBody_escape]
    simp [stringMk_data]
  | arr xs =>
    have hsplit : printJson (.arr xs) ++ rest = '[' :: (printElems xs ++ rest) := by
      simp [printJson]
    rw [hsplit, parseVal.eq_def]
    simp only [show ('['.isDigit) = false from rfl, Bool.false_eq_true, if_false,
      show ('[' = '-') = False by simp, show ('[' = '"') = False by simp, if_pos rfl]
    rw [parseElems_print xs rest f (by simp [needV] at hf; omega)]
    simp
  | obj fs =>
    have hsplit : printJson (.obj fs) ++ rest = '{' :: (printFields fs ++ rest) := by
      simp [printJson]
    rw [hsplit, parseVal.eq_def]
    simp only [show ('{'.isDigit) = false from rfl, Bool.false_eq_true, if_false,
      show ('{' = '-') = False by simp, show ('{' = '"') = False by simp,
      show ('{' = '[') = False by simp, if_pos rfl]
    rw [parseFields_print fs rest f (by simp [needV] at hf; omega)]
    simp

theorem parseElems_print (xs : List Json) (rest : List Char) (fuel : Nat)
    (hf : needElems xs ≤ fuel) :
    parseElems fuel (printElems xs ++ rest) = some (xs, rest) := by
  obtain ⟨f, rfl⟩ : ∃ f, fuel = f + 1 :=
    ⟨fuel - 1, by cases xs <;> simp [needElems] at hf <;> omega⟩
  cases xs with
  | nil =>
    show parseElems (f + 1) ([']'] ++ rest) = _
    rw [parseElems.eq_def]
    simp
  | cons x t =>
    obtain ⟨c, cs, hct, hc⟩ := printJson_head x
    have hf2 : max (needV x) (needElems t) + 1 ≤ f + 1 := by
      simpa [needElems] using hf
    have hxf : needV x ≤ f := by
      have := le_max_left (needV x) (needElems t)
      omega
    have htf0 : needElems t ≤ f := by
      have := le_max_right (needV x) (needElems t)
      omega
    cases t with
    | nil =>
      have hsplit : printElems [x] ++ rest = c :: (cs ++ (']' :: rest)) := by
        simp [printElems, hct]
      rw [hsplit, parseElems.eq_def]
      simp only [if_neg hc]
      have hback : c :: (cs ++ ']' :: rest) = printJson x ++ (']' :: rest) := by
        rw [hct]; simp
      rw [hback, parseVal_print x (']' :: rest) f hxf (by simp [noDigitHead])]
      simp
    | cons y t2 =>
      have hsplit : printElems (x :: y :: t2) ++ rest =
          c :: (cs ++ (',' :: (printElems (y :: t2) ++ rest))) := by
        simp [printElems, hct]
      rw [hsplit, parseElems.eq_def]
      simp only [if_neg hc]
      have hback : c :: (cs ++ ',' :: (printElems (y :: t2) ++ rest)) =
          printJson x ++ (',' :: (printElems (y :: t2) ++ rest)) := by
        rw [hct]; simp
      rw [hback, parseVal_print x _ f hxf (by simp [noDigitHead])]
      simp [parseElems_print (y :: t2) rest f htf0]

theorem parseFields_print (fls : List (String × Json)) (rest : List Char) (fuel : Nat)
    (hf : needFields fls ≤ fuel) :
    parseFields fuel (printFields fls ++ rest) = some (fls, rest) := by
  obtain ⟨f, rfl⟩ : ∃ f, fuel = f + 1 :=
    ⟨fuel - 1, by cases fls <;> simp [needFields] at hf <;> omega⟩
  cases fls with
  | nil =>
    show parseFields (f + 1) (['}'] ++ rest) = _
    rw [parseFields.eq_def]
    simp
  | cons kv t =>
    obtain ⟨k, v⟩ := kv
    have hf2 : max (needV v) (needFields t) + 1 ≤ f + 1 := by
      simpa [needFields] using hf
    have hvf : needV v ≤ f := by
      have := le_max_left (needV v) (needFields t)
      omega
    have htf0 : needFields t ≤ f := by
      have := le_max_right (needV v) (needFields t)
      omega
    cases t with
    | nil =>
      have hsplit : printFields [(k, v)] ++ rest =
          '"' :: (escapeChars k.data ++ '"' :: (':' :: (printJson v ++ ('}' :: rest)))) := by
        simp [printFields]
      rw [hsplit, parseFields.eq_def]
      simp only [show ('"' = '}') = False by simp, if_false, if_pos rfl]
      rw [parseStrBody_escape]
      simp only
      rw [parseVal_print v ('}' :: rest) f hvf (by simp [noDigitHead])]
      simp [stringMk_data]
    | cons kv2 t2 =>
      have hsplit : printFields ((k, v) :: kv2 :: t2) ++ rest =
          '"' :: (escapeChars k.data ++ '"' ::
            (':' :: (printJson v ++ (',' :: (printFields (kv2 :: t2) ++ rest))))) := by
        simp [printFields]
      rw [hsplit, parseFields.eq_def]
      simp only [show ('"' = '}') = False by simp, if_false, if_pos rfl]
      rw [parseStrBody_escape]
      simp only
      rw [parseVal_print v _ f hvf (by simp [noDigitHead])]
      simp [parseFields_print (kv2 :: t2) rest f htf0, stringMk_data]

end

mutual

theorem needV_le (v : Json) : needV v ≤ (printJson v).length := by
  cases v with
  | null => simp [needV, printJson]
  | bool b => cases b <;> simp [needV, printJson]
  | num i =>
    cases i with
    | ofNat n =>
      have := List.length_pos.mpr (printNat_ne_nil n)
      simp [needV, printJson, printInt]
      omega
    | negSucc m => simp [needV, printJson, printInt]
  | str s => simp [needV, printJson]
  | arr xs =>
    have := needElems_le xs
    simp [needV, printJson]
    omega
  | obj fs =>
    have := needFields_le fs
    simp [needV, printJson]
    omega

theorem needElems_le (xs : List Json) : needElems xs ≤ (printElems xs).length := by
  cases xs with
  | nil => simp [needElems, printElems]
  | cons x t =>
    have hx := needV_le x
    have h1 := one_le_needV x
    cases t with
    | nil =>
      simp [needElems, printElems]
      omega
    | cons y t2 =>
      have ht := needElems_le (y :: t2)
      have e1 : needElems (x :: y :: t2) = max (needV x) (needElems (y :: t2)) + 1 := by
        rw [needElems]
      have e2 : printElems (x :: y :: t2) = printJson x ++ ',' :: printElems (y :: t2) := by
        rw [printElems]
      rw [e1, e2]
      simp [List.length_append]
      omega

theorem needFields_le (fls : List (String × Json)) : needFields fls ≤ (printFields fls).length := by
  cases fls with
  | nil => simp [needFields, printFields]
  | cons kv t =>
    obtain ⟨k, v⟩ := kv
    have hv := needV_le v
    have h1 := one_le_needV v
    cases t with
    | nil =>
      simp [needFields, printFields]
      omega
    | cons kv2 t2 =>
      have ht := needFields_le (kv2 :: t2)
      have e1 : needFields ((k, v) :: kv2 :: t2) = max (needV v) (needFields (kv2 :: t2)) + 1 := by
        rw [needFields]
      have e2 : printFields ((k, v) :: kv2 :: t2) =
          '"' :: escapeChars k.data ++ '"' :: ':' :: printJson v ++ ',' :: printFields (kv2 :: t2) := by
        rw [printFields]
      rw [e1, e2]
      simp [List.length_append]
      omega

end

/-- Round trip: parsing a serialized JSON value recovers it exactly
(the model-level fact that `JSON.parse(JSON.stringify(x))` returns `x`). -/
theorem jsonParse_stringify (v : Json) : jsonParse (jsonStringify v) = some v := by
  unfold jsonParse jsonStringify
  have h2 := parseVal_print v [] ((printJson v).length + 1)
    (by have := needV_le v; omega) (by simp [noDigitHead])
  rw [List.append_nil] at h2
  have hdata : (String.mk (printJson v)).data = printJson v := rfl
  rw [hdata, h2]

/-! ## Data model (src/types/index.ts)

Only the fields read by the three specified components are modelled; `Date`
timestamps, uuid `id` fields on messages and the artifact list are
provenance-only in those components. Token-usage accounting is likewise
carried opaquely by the source and not consulted by any control flow. -/

inductive MessageRole where
  | user
  | assistant
  | system
  | tool
deriving DecidableEq, Repr

/-- A tool invocation emitted by the model (types/index.ts `ToolCall`). -/
structure ToolCall where
  id : String
  name : String
  arguments : Json
deriving Repr

/-- Outcome of one tool invocation (types/index.ts `ToolResult`). -/
structure ToolResult where
  toolCallId : String
  success : Bool
  output : Option String
  error : Option String
deriving Repr

/-- A conversation message (types/index.ts `Message`). -/
structure Message where
  role : MessageRole
  content : String
  toolCalls : Option (List ToolCall)
  toolResults : Option (List ToolResult)
deriving Repr

inductive FinishReason where
  | stop
  | tool_calls
  | length
  | error
deriving DecidableEq, Repr

/-- Provider-agnostic completion response (models/client.ts `CompletionResponse`). -/
structure CompletionResponse where
  content : String
  toolCalls : Option (List ToolCall)
  finishReason : FinishReason
deriving Repr

/-- Result of one task execution (types/index.ts `TaskResult`). -/
structure TaskResult where
  success : Bool
  output : Option String
  error : Option String
deriving DecidableEq, Repr

inductive TaskStatus where
  | pending
  | in_progress
  | waiting_input
  | completed
  | failed
deriving DecidableEq, Repr

/-- The task fields the execution engine reads and writes (named `HTask` to
avoid the Lean core `Task` type). -/
structure HTask where
  title : String
  description : String
  status : TaskStatus
  result : Option TaskResult
deriving Repr

inductive ModelProvider where
  | openai
  | anthropic
  | lmstudio
  | ollama
deriving DecidableEq, Repr

/-! ## Zod parameter schemas and their JSON-schema conversion

The repository declares tool parameters with zod (`z.object({...})`,
`z.string()`, ...); `ZodType` models the schema shapes the repository and the
zod combinators used can build. -/

inductive ZodType where
  | string : ZodType
  | number : ZodType
  | boolean : ZodType
  | enum (values : List String) : ZodType
  | array (elem : ZodType) : ZodType
  | object (fields : List (String × ZodType)) (required : List String) : ZodType

/-- Model of `ModelClient.zodToJsonSchema` (models/client.ts lines 342-350):
the source ignores its argument and returns the constant
`{ type: 'object', properties: {}, required: [] }`. -/
def zodToJsonSchema (_schema : ZodType) : Json :=
  .obj [("type", .str "object"), ("properties", .obj []), ("required", .arr [])]

/-- An external tool contract: declared parameter schema plus an executable
body; a thrown exception is `Except.error` carrying the message. -/
structure Tool where
  name : String
  description : String
  parameters : ZodType
  execute : Json → Except String ToolResult

/-! ## Provider adapter: wire formats (src/models/client.ts) -/

/-- One entry of the OpenAI `tool_calls` array: `fname`/`argumentsStr` model
the nested `function.name` / `function.arguments` (serialized JSON) fields. -/
structure OAIToolCall where
  id : String
  fname : String
  argumentsStr : String
deriving Repr

/-- An OpenAI-format chat message as produced by `messagesToOpenAI`. -/
structure OAIMessage where
  role : String
  content : Option String
  toolCallId : Option String
  toolCalls : Option (List OAIToolCall)
deriving Repr

def roleString : MessageRole → String
  | .user => "user"
  | .assistant => "assistant"
  | .system => "system"
  | .tool => "tool"

/-- Model of `ModelClient.messagesToOpenAI` (client.ts lines 249-280). -/
def messagesToOpenAI (msgs : List Message) : List OAIMessage :=
  msgs.map fun msg =>
    match msg.role, msg.toolResults, msg.toolCalls with
    | .tool, some rs, _ =>
      ⟨"tool", some msg.content, some ((rs.head?.map ToolResult.toolCallId).getD ""), none⟩
    | .assistant, _, some tcs =>
      ⟨"assistant", if msg.content = "" then none else some msg.content, none,
        some (tcs.map fun tc => ⟨tc.id, tc.name, jsonStringify tc.arguments⟩)⟩
    | _, _, _ => ⟨roleString msg.role, some msg.content, none, none⟩

/-- The tool-call parsing step of `completeOpenAI` (client.ts lines 156-160):
each wire call becomes `{id, name, arguments: JSON.parse(...)}`; a
`JSON.parse` failure throws out of the completion call. -/
def oaiParseToolCalls : List OAIToolCall → Except String (List ToolCall)
  | [] => .ok []
  | tc :: rest =>
    match jsonParse tc.argumentsStr with
    | some a =>
      match oaiParseToolCalls rest with
      | .ok parsed => .ok (⟨tc.id, tc.fname, a⟩ :: parsed)
      | .error e => .error e
    | none => .error "Unexpected token in JSON"

/-- An Anthropic content block (text, tool_use, or tool_result). -/
inductive AContentBlock where
  | text (t : String)
  | toolUse (id : String) (name : String) (input : Json)
  | toolResult (toolUseId : String) (content : String)
deriving Repr

/-- An Anthropic-format message: content is either a plain string or a block
list. -/
structure AMessage where
  role : String
  content : Sum String (List AContentBlock)
deriving Repr

/-- Model of `ModelClient.messagesToAnthropic` (client.ts lines 285-337):
system content is extracted out-of-band (last system message wins, as the
source reassigns `system` on each one). -/
def messagesToAnthropic (msgs : List Message) : Option String × List AMessage :=
  msgs.foldl
    (fun acc msg =>
      match msg.role, msg.toolResults, msg.toolCalls with
      | .system, _, _ => (some msg.content, acc.2)
      | .tool, some rs, _ =>
        (acc.1, acc.2 ++
          [⟨"user", .inr [.toolResult ((rs.head?.map ToolResult.toolCallId).getD "") msg.content]⟩])
      | .assistant, _, some tcs =>
        (acc.1, acc.2 ++
          [⟨"assistant", .inr
            ((if msg.content = "" then [] else [.text msg.content]) ++
              tcs.map fun tc => .toolUse tc.id tc.name tc.arguments)⟩])
      | _, _, _ =>
        (acc.1, acc.2 ++ [⟨if msg.role = .user then "user" else "assistant", .inl msg.content⟩]))
    (none, [])

/-- The content/tool-use folding step of `completeAnthropic` (client.ts lines
214-228): text blocks concatenate into `content`, tool_use blocks append to
the call list, other blocks are skipped. -/
def anthropicExtractContent (blocks : List AContentBlock) : String × List ToolCall :=
  blocks.foldl
    (fun acc b =>
      match b with
      | .text t => (acc.1 ++ t, acc.2)
      | .toolUse i n inp => (acc.1, acc.2 ++ [⟨i, n, inp⟩])
      | .toolResult _ _ => acc)
    ("", [])

/-! ## Provider adapter: client configuration, complete and streamComplete -/

/-- Configuration state of `ModelClient`: which OpenAI-compatible client keys
are present in `openaiClients`, and whether `anthropicClient` is set. -/
structure ModelClientState where
  openaiClients : List String
  anthropicClient : Bool

/-- The raw message of the first choice of an OpenAI chat completion. -/
structure OAIChoiceMessage where
  content : Option String
  toolCalls : Option (List OAIToolCall)
  finishReason : String

/-- The raw content of an Anthropic messages response. -/
structure AResponse where
  content : List AContentBlock
  stopReason : String

/-- Model of `ModelClient.completeOpenAI` (client.ts lines 119-176). The
`transport` argument is the awaited network result (`Except.error` models a
thrown transport error, which the source logs and rethrows unchanged). -/
def completeOpenAI (st : ModelClientState) (clientKey : String)
    (transport : Except String OAIChoiceMessage) : Except String CompletionResponse :=
  if st.openaiClients.contains clientKey = false then
    .error (clientKey ++ " client not configured")
  else
    match transport with
    | .error e => .error e
    | .ok choice =>
      let fin : FinishReason := if choice.finishReason = "tool_calls" then .tool_calls else .stop
      match choice.toolCalls with
      | none => .ok ⟨jsOr choice.content "", none, fin⟩
      | some tcs =>
        match oaiParseToolCalls tcs with
        | .error e => .error e
        | .ok parsed => .ok ⟨jsOr choice.content "", some parsed, fin⟩

/-- Model of `ModelClient.completeAnthropic` (client.ts lines 181-244). -/
def completeAnthropic (st : ModelClientState)
    (transport : Except String AResponse) : Except String CompletionResponse :=
  if st.anthropicClient = false then
    .error "Anthropic client not configured"
  else
    match transport with
    | .error e => .error e
    | .ok resp =>
      let extracted := anthropicExtractContent resp.content
      .ok ⟨extracted.1,
        if 0 < extracted.2.length then some extracted.2 else none,
        if resp.stopReason = "tool_use" then .tool_calls else .stop⟩

/-- Model of `ModelClient.complete` (client.ts lines 89-114): provider
resolution via the detector result (`modelInfo`) or the `provider:` prefix of
the model string. -/
def complete (st : ModelClientState) (modelInfo : Option ModelProvider) (model : String)
    (oaiTransport : String → Except String OAIChoiceMessage)
    (aTransport : Except String AResponse) : Except String CompletionResponse :=
  match modelInfo with
  | none =>
    if model.startsWith "openai:" then completeOpenAI st "openai" (oaiTransport "openai")
    else if model.startsWith "anthropic:" then completeAnthropic st aTransport
    else if model.startsWith "lmstudio:" then completeOpenAI st "lmstudio" (oaiTransport "lmstudio")
    else .error ("Unknown model: " ++ model)
  | some p =>
    match p with
    | .openai => completeOpenAI st "openai" (oaiTransport "openai")
    | .lmstudio => completeOpenAI st "lmstudio" (oaiTransport "lmstudio")
    | .anthropic => completeAnthropic st aTransport
    | .ollama => .error "Unsupported provider: ollama"

/-- Model of `ModelClient.streamOpenAI` (client.ts lines 368-395): with no
configured client the generator returns immediately (zero fragments); else it
yields each chunk delta content that is truthy (present and non-empty). -/
def streamOpenAI (st : ModelClientState) (clientKey : String)
    (chunks : List (Option String)) : List String :=
  if st.openaiClients.contains clientKey = false then []
  else
    chunks.filterMap fun c =>
      match c with
      | some s => if s = "" then none else some s
      | none => none

/-- Model of `ModelClient.streamAnthropic` (client.ts lines 400-422): with no
configured client the generator returns immediately; else it yields the text
of every text_delta event (`events` holds `some text` for those, `none` for
other event kinds). -/
def streamAnthropic (st : ModelClientState) (events : List (Option String)) : List String :=
  if st.anthropicClient = false then []
  else events.filterMap id

/-- Model of `ModelClient.streamComplete` (client.ts lines 355-363). -/
def streamComplete (st : ModelClientState) (modelInfo : Option ModelProvider)
    (chunks : List (Option String)) (events : List (Option String)) : List String :=
  if modelInfo = none ∨ modelInfo = some .openai ∨ modelInfo = some .lmstudio then
    streamOpenAI st (if modelInfo = some .lmstudio then "lmstudio" else "openai") chunks
  else if modelInfo = some .anthropic then streamAnthropic st events
  else []

/-! ## Execution engine (BaseAgent.execute and helpers) -/

/-- The per-agent tool registry: association of tool name to tool, as built by
`registerTool` (`this.tools.set(tool.name, tool)`). -/
def ToolRegistry : Type := List (String × Tool)

/-- Model of `BaseAgent.executeTool` (agent source lines 242-262): an unknown
name or a throwing tool body is contained into a failed `ToolResult`; the
function itself never throws. -/
def executeTool (tools : ToolRegistry) (toolCall : ToolCall) : ToolResult :=
  match List.lookup toolCall.name tools with
  | none => ⟨toolCall.id, false, none, some ("Unknown tool: " ++ toolCall.name)⟩
  | some tool =>
    match tool.execute toolCall.arguments with
    | .ok r => r
    | .error msg => ⟨toolCall.id, false, none, some msg⟩

/-- The assistant message pushed for one dispatched call (loop body lines
133-139): response content plus that single call. -/
def assistantToolCallMsg (content : String) (tc : ToolCall) : Message :=
  ⟨.assistant, content, some [tc], none⟩

/-- The tool message pushed for one result (loop body lines 140-146):
content is `result.output || result.error || ''` plus the `ToolResult`. -/
def toolResultMsg (r : ToolResult) : Message :=
  ⟨.tool, jsOr r.output (jsOr r.error ""), none, some [r]⟩

/-- The `for (const toolCall of response.toolCalls)` body (lines 127-147):
each call is executed in order and an assistant/tool message pair is appended
per call. -/
def dispatchCalls (tools : ToolRegistry) (content : String) (calls : List ToolCall)
    (msgs : List Message) : List Message :=
  calls.foldl
    (fun acc c => acc ++ [assistantToolCallMsg content c, toolResultMsg (executeTool tools c)])
    msgs

/-- Aggregate outcome of one `execute` call: the task result, the final local
message list, how many completion requests were issued, and the task status
written. -/
structure ExecOutcome where
  result : TaskResult
  messages : List Message
  requests : Nat
  status : TaskStatus
deriving Repr

/-- The iteration cap of the agent loop (`const maxIterations = 10`). -/
def maxIterations : Nat := 10

/-- Model of the `while (iterations < maxIterations)` loop of
`BaseAgent.execute` (lines 114-174). `fuel` is the number of remaining
iterations, `iter` indexes the oracle of completion outcomes; an
`Except.error` from the oracle is the provider exception that escapes the
loop into the surrounding catch (lines 175-186). -/
def execLoop (tools : ToolRegistry) (oracle : Nat → Except String CompletionResponse) :
    Nat → Nat → List Message → ExecOutcome
  | 0, _, msgs =>
    ⟨⟨false, none, some "Max iterations reached without completion"⟩, msgs, 0, .failed⟩
  | fuel + 1, iter, msgs =>
    match oracle iter with
    | .error e => ⟨⟨false, none, some e⟩, msgs, 1, .failed⟩
    | .ok resp =>
      match resp.toolCalls with
      | some calls =>
        if 0 < calls.length then
          let next := execLoop tools oracle fuel (iter + 1)
            (dispatchCalls tools resp.content calls msgs)
          ⟨next.result, next.messages, next.requests + 1, next.status⟩
        else ⟨⟨true, some resp.content, none⟩, msgs, 1, .completed⟩
      | none => ⟨⟨true, some resp.content, none⟩, msgs, 1, .completed⟩

/-- Model of `BaseAgent.buildMessages` (lines 196-218): system prompt, the
trailing 10 history messages, then the task as a user turn. -/
def buildMessages (systemPrompt : String) (history : List Message) (task : HTask) :
    List Message :=
  ⟨.system, systemPrompt, none, none⟩ ::
    (history.drop (history.length - 10) ++
      [⟨.user, "Task: " ++ task.title ++ "\n\nDescription: " ++ task.description, none, none⟩])

/-- Model of `BaseAgent.execute` (lines 104-191): build the message list then
run the bounded loop; the outcome also carries the status/result written back
onto the task. -/
def execute (tools : ToolRegistry) (oracle : Nat → Except String CompletionResponse)
    (systemPrompt : String) (history : List Message) (task : HTask) : ExecOutcome :=
  execLoop tools oracle maxIterations 0 (buildMessages systemPrompt history task)

/-! ## Classifier (src/core/samantha.ts and src/utils/index.ts) -/

inductive AgentType where
  | work
  | personal
deriving DecidableEq, Repr

inductive IntentType where
  | work
  | personal
  | unclear
deriving DecidableEq, Repr

def AgentType.toIntentType : AgentType → IntentType
  | .work => .work
  | .personal => .personal

inductive TaskPriority where
  | low
  | medium
  | high
  | urgent
deriving DecidableEq, Repr

/-- Classification intent (types/index.ts `Intent`); confidence is exact
rational arithmetic modelling the JS number computations, all of which are
sums, products and divisions of small decimals. -/
structure Intent where
  type : IntentType
  confidence : ℚ
  category : String
  suggestedAgent : String
  requiresHumanApproval : Bool
  reasoning : String
deriving Repr

structure ExtractedTask where
  title : String
  description : String
  priority : TaskPriority
  tools : List String
deriving Repr

structure TaskClassification where
  intent : Intent
  extractedTask : ExtractedTask
deriving Repr

/-- Split at the first `']'`: returns the characters before it and the
characters after it, or `none` when no `']'` exists. -/
def splitRB : List Char → Option (List Char × List Char)
  | [] => none
  | c :: t =>
    if c = ']' then some ([], t)
    else (splitRB t).map fun p => (c :: p.1, p.2)

/-- Fuel-indexed scanner modelling the global regex `/\[([^\]]+)\]/g` of
`extractTags`: successive non-overlapping matches are collected (lowercased)
and removed; `[]` with empty content is not a match, so scanning resumes after
the opening bracket. Fuel is at least the input length, and every step
consumes at least one character. -/
def scanTags : Nat → List Char → List (List Char) × List Char
  | 0, cs => ([], cs)
  | _ + 1, [] => ([], [])
  | fuel + 1, c :: rest =>
    if c = '[' then
      match splitRB rest with
      | none =>
        let scanned := scanTags fuel rest
        (scanned.1, c :: scanned.2)
      | some (content, after) =>
        if content.isEmpty then
          let scanned := scanTags fuel rest
          (scanned.1, c :: scanned.2)
        else
          let scanned := scanTags fuel after
          (asciiLower content :: scanned.1, scanned.2)
    else
      let scanned := scanTags fuel rest
      (scanned.1, c :: scanned.2)

/-- Model of `extractTags` (utils/index.ts lines 209-221): the lowercased tag
contents, and the input with every match removed and then trimmed. -/
def extractTags (input : String) : List String × String :=
  let scanned := scanTags (input.data.length + 1) input.data
  (scanned.1.map String.mk, ⟨trimChars scanned.2⟩)

/-- Model of `hasExplicitAgentType` (utils/index.ts lines 226-233). -/
def hasExplicitAgentType (input : String) : Option AgentType :=
  let tags := (extractTags input).1
  if tags.contains "work" then some .work
  else if tags.contains "personal" then some .personal
  else none

/-- The fixed work-indicator keyword list (samantha.ts lines 338-344). -/
def workIndicators : List String :=
  ["pr", "pull request", "github", "code", "deploy", "slack",
   "meeting", "standup", "sprint", "jira", "documentation",
   "api", "bug", "feature", "review", "merge", "commit",
   "branch", "production", "staging", "project", "deadline",
   "client", "team", "colleague", "work email", "work calendar"]

/-- The fixed personal-indicator keyword list (samantha.ts lines 347-352). -/
def personalIndicators : List String :=
  ["personal", "family", "friend", "mom", "dad", "vacation",
   "hobby", "health", "exercise", "recipe", "entertainment",
   "social media", "home", "shopping", "travel", "birthday",
   "anniversary", "personal calendar", "personal email"]

/-- Count how many indicators occur (case-insensitive substring) in the input. -/
def countMatches (lowerInput : List Char) (indicators : List String) : Nat :=
  (indicators.filter fun ind => listContains lowerInput ind.data).length

/-- The `workScore` counter of `heuristicClassify`. -/
def workScore (input : String) : Nat :=
  countMatches (asciiLower input.data) workIndicators

/-- The `personalScore` counter of `heuristicClassify`. -/
def personalScore (input : String) : Nat :=
  countMatches (asciiLower input.data) personalIndicators

/-- Whether any of the listed literals occurs in the (lowered) input: the
meaning of the literal-alternation regex tests of the classifier. -/
def anyMatch (lower : List Char) (words : List String) : Bool :=
  words.any fun w => listContains lower w.data

/-- Model of `Samantha.detectCategory` (samantha.ts lines 393-406): a fixed
ordered list of keyword rules, first match wins, default `chat`. -/
def detectCategory (input : String) : String :=
  let lower := asciiLower input.data
  if anyMatch lower ["github", "pr", "pull request", "merge", "commit", "branch", "repo"] then
    "github"
  else if anyMatch lower ["code", "implement", "fix", "bug", "feature", "refactor", "debug"] then
    "coding"
  else if anyMatch lower ["slack", "message", "channel", "team"] then "slack"
  else if anyMatch lower ["email", "mail", "send", "reply"] then "email"
  else if anyMatch lower ["calendar", "schedule", "meeting", "appointment"] then "calendar"
  else if anyMatch lower ["search", "research", "find", "look up"] then "research"
  else if anyMatch lower ["write", "create", "draft", "compose", "blog", "post"] then "creative"
  else if anyMatch lower ["social", "twitter", "linkedin", "instagram", "post"] then "social"
  else "chat"

/-- Model of `Samantha.categoryToAgent` (lines 411-424): the static lookup
table maps each known category to the same-named role, anything else to
`chat`. -/
def categoryToAgent (category : String) : String :=
  if ["github", "coding", "slack", "email", "calendar", "research", "creative",
      "social", "chat"].contains category then category
  else "chat"

/-- Model of `Samantha.extractTitle` (lines 429-434). -/
def extractTitle (input : String) : String :=
  let firstSentence : String := ⟨input.data.takeWhile fun c => ¬(c = '.' ∨ c = '!' ∨ c = '?')⟩
  if firstSentence.data.length ≤ 50 then firstSentence
  else ⟨input.data.take 47⟩ ++ "..."

/-- Model of `Samantha.detectPriority` (lines 439-447). -/
def detectPriority (input : String) : TaskPriority :=
  let lower := asciiLower input.data
  if anyMatch lower ["urgent", "asap", "immediately", "critical", "emergency"] then .urgent
  else if anyMatch lower ["important", "priority", "soon", "today"] then .high
  else if anyMatch lower ["when you can", "whenever", "low priority"] then .low
  else .medium

/-- Model of `Samantha.detectTools` (lines 452-465). -/
def detectTools (category : String) : List String :=
  if category = "github" then ["github_api", "git"]
  else if category = "coding" then ["file_system", "shell", "code_edit"]
  else if category = "slack" then ["slack_api"]
  else if category = "email" then ["gmail_api"]
  else if category = "calendar" then ["calendar_api"]
  else if category = "research" then ["web_search"]
  else if category = "creative" then ["text_generation"]
  else if category = "social" then ["social_media_api"]
  else []

def AgentType.str : AgentType → String
  | .work => "work"
  | .personal => "personal"

/-- Model of `Samantha.quickClassify` (lines 310-329): explicit-tag
classification with confidence 1.0, bypassing scoring and the model. -/
def quickClassify (input : String) (t : AgentType) : TaskClassification :=
  let category := detectCategory input
  ⟨⟨t.toIntentType, 1, category, categoryToAgent category, false,
      "Explicitly marked as " ++ t.str⟩,
    ⟨extractTitle input, input, detectPriority input, detectTools category⟩⟩

/-- Model of `Samantha.heuristicClassify` (lines 334-388). -/
def heuristicClassify (input : String) : TaskClassification :=
  let w := workScore input
  let p := personalScore input
  let type : IntentType := if p < w then .work else if w < p then .personal else .unclear
  let score : ℚ := |(w : ℚ) - (p : ℚ)| / ((max (w + p) 1 : Nat) : ℚ)
  let category := detectCategory input
  ⟨⟨type, min 0.9 (0.5 + score * 0.4), category, categoryToAgent category, false,
      "Heuristic classification: " ++ toString w ++ " work indicators, " ++
        toString p ++ " personal indicators"⟩,
    ⟨extractTitle input, input, detectPriority input, detectTools category⟩⟩

/-- The greedy regex match `/\{[\s\S]*\}/` of `classifyTask` (line 294): the
span from the first `'{'` through the last `'}'`, when the latter comes after
the former. -/
def extractJsonSpan (cs : List Char) : Option (List Char) :=
  let fromBrace := cs.dropWhile fun c => ¬c = '{'
  match fromBrace with
  | [] => none
  | _ :: _ =>
    let revFrom := fromBrace.reverse.dropWhile fun c => ¬c = '}'
    match revFrom with
    | [] => none
    | _ :: _ => some revFrom.reverse

/-- Result of `classifyTask`: the TS source returns either the parsed model
JSON cast unchecked to `TaskClassification`, or a locally computed
classification; the cast is modelled by carrying the raw `Json`. -/
inductive ClassifyOutcome where
  | fromModel (parsed : Json)
  | computed (c : TaskClassification)
deriving Repr

/-- Model of `Samantha.classifyTask` (lines 250-305). `modelId` is the
configured model (if any); `modelResponse` is the awaited completion outcome
when the model is consulted (`Except.error` models a thrown provider error,
caught at line 299). -/
def classifyTask (input : String) (explicitType : Option AgentType)
    (modelId : Option String) (modelResponse : Except String String) : ClassifyOutcome :=
  match explicitType with
  | some t => .computed (quickClassify input t)
  | none =>
    let heuristicResult := heuristicClassify input
    if heuristicResult.intent.confidence > 0.8 then .computed heuristicResult
    else
      match modelId with
      | none => .computed heuristicResult
      | some _ =>
        match modelResponse with
        | .error _ => .computed heuristicResult
        | .ok content =>
          match extractJsonSpan content.data with
          | none => .computed heuristicResult
          | some span =>
            match jsonParse ⟨span⟩ with
            | none => .computed heuristicResult
            | some parsed => .fromModel parsed

/-- The classification wiring of `Samantha.process` (lines 134-155): the
explicit tag is read off the raw input, and `classifyTask` runs on the
tag-stripped input. -/
def processClassification (input : String) (modelId : Option String)
    (modelResponse : Except String String) : ClassifyOutcome :=
  classifyTask (extractTags input).2 (hasExplicitAgentType input) modelId modelResponse

/-! ## Claim theorems -/

/-- C1: the claim that the tool parameter-schema conversion sent to the
backends is structural and lossless fails on the code: `zodToJsonSchema` is a
constant function returning the empty object schema for every input, so every
distinct schema (such as the github agent's `z.object({repo: z.string()})`
with its required field) collapses to `{type:'object',properties:{},
required:[]}`. This theorem evaluates the code at such a failing input. -/
theorem zodToJsonSchema_constant_stub :
    (∀ s1 s2 : ZodType, zodToJsonSchema s1 = zodToJsonSchema s2) ∧
    zodToJsonSchema (.object [("repo", .string)] ["repo"]) =
      .obj [("type", .str "object"), ("properties", .obj []), ("required", .arr [])] ∧
    ZodType.object [("repo", .string)] ["repo"] ≠ ZodType.object [] [] :=
  ⟨fun _ _ => rfl, rfl, by simp⟩

/-- C10: with no client configured for the resolved provider, `streamComplete`
yields a sequence with zero fragments and no error (both stream generators
return immediately), while `complete` for the same configuration state throws
a `... client not configured` error before consulting any transport. -/
theorem streamComplete_unconfigured_contrast (st : ModelClientState)
    (mi : Option ModelProvider) (chunks events : List (Option String))
    (oaiT : String → Except String OAIChoiceMessage) (aT : Except String AResponse)
    (hO : st.openaiClients = []) (hA : st.anthropicClient = false) :
    streamComplete st mi chunks events = [] ∧
    completeOpenAI st "openai" (oaiT "openai") = .error "openai client not configured" ∧
    completeOpenAI st "lmstudio" (oaiT "lmstudio") = .error "lmstudio client not configured" ∧
    completeAnthropic st aT = .error "Anthropic client not configured" := by
  obtain ⟨oc, ac⟩ := st
  simp only at hO hA
  subst hO hA
  refine ⟨?_, rfl, rfl, rfl⟩
  unfold streamComplete streamOpenAI streamAnthropic
  rcases mi with _ | p
  · simp
  · cases p <;> simp

/-- Witness for C10 at a concrete unconfigured state. -/
theorem streamComplete_unconfigured_contrast_witness :
    streamComplete ⟨[], false⟩ (some .anthropic) [some "x"] [some "y"] = [] ∧
    completeOpenAI ⟨[], false⟩ "openai" (.error "net") = .error "openai client not configured" ∧
    completeOpenAI ⟨[], false⟩ "lmstudio" (.error "net") = .error "lmstudio client not configured" ∧
    completeAnthropic ⟨[], false⟩ (.error "net") = .error "Anthropic client not configured" :=
  streamComplete_unconfigured_contrast ⟨[], false⟩ (some .anthropic) [some "x"] [some "y"]
    (fun _ => .error "net") (.error "net") rfl rfl

/-- The dispatch fold appends one assistant/tool message pair per call. -/
theorem dispatchCalls_eq_flatMap (tools : ToolRegistry) (content : String)
    (calls : List ToolCall) (msgs : List Message) :
    dispatchCalls tools content calls msgs =
      msgs ++ calls.flatMap
        (fun c => [assistantToolCallMsg content c, toolResultMsg (executeTool tools c)]) := by
  induction calls generalizing msgs with
  | nil => simp [dispatchCalls]
  | cons c rest ih =>
    simp only [dispatchCalls, List.foldl_cons, List.flatMap_cons]
    rw [show (List.foldl _ _ _ : List Message) = dispatchCalls tools content rest
      (msgs ++ [assistantToolCallMsg content c, toolResultMsg (executeTool tools c)]) from rfl]
    rw [ih]
    simp

/-- One loop step on a response carrying tool calls: dispatch, append the
pairs, then recurse with one fewer remaining iteration. -/
theorem execLoop_step_toolCalls (tools : ToolRegistry)
    (oracle : Nat → Except String CompletionResponse) (fuel iter : Nat)
    (msgs : List Message) (resp : CompletionResponse) (calls : List ToolCall)
    (h : oracle iter = .ok resp) (hc : resp.toolCalls = some calls)
    (hl : 0 < calls.length) :
    execLoop tools oracle (fuel + 1) iter msgs =
      ⟨(execLoop tools oracle fuel (iter + 1)
          (dispatchCalls tools resp.content calls msgs)).result,
        (execLoop tools oracle fuel (iter + 1)
          (dispatchCalls tools resp.content calls msgs)).messages,
        (execLoop tools oracle fuel (iter + 1)
          (dispatchCalls tools resp.content calls msgs)).requests + 1,
        (execLoop tools oracle fuel (iter + 1)
          (dispatchCalls tools resp.content calls msgs)).status⟩ := by
  rw [execLoop, h]
  simp [hc, hl]

/-- One loop step on a tool-call-free response: terminate successfully. -/
theorem execLoop_step_finish (tools : ToolRegistry)
    (oracle : Nat → Except String CompletionResponse) (fuel iter : Nat)
    (msgs : List Message) (resp : CompletionResponse)
    (h : oracle iter = .ok resp) (hc : resp.toolCalls = none) :
    execLoop tools oracle (fuel + 1) iter msgs =
      ⟨⟨true, some resp.content, none⟩, msgs, 1, .completed⟩ := by
  rw [execLoop, h]
  simp [hc]

/-- One loop step on a thrown provider error: the exception escapes the loop
and fails the task with the thrown message. -/
theorem execLoop_step_error (tools : ToolRegistry)
    (oracle : Nat → Except String CompletionResponse) (fuel iter : Nat)
    (msgs : List Message) (e : String) (h : oracle iter = .error e) :
    execLoop tools oracle (fuel + 1) iter msgs =
      ⟨⟨false, none, some e⟩, msgs, 1, .failed⟩ := by
  rw [execLoop, h]

/-- The loop issues at most `fuel` completion requests. -/
theorem execLoop_requests_le (tools : ToolRegistry)
    (oracle : Nat → Except String CompletionResponse) (fuel : Nat) :
    ∀ iter msgs, (execLoop tools oracle fuel iter msgs).requests ≤ fuel := by
  induction fuel with
  | zero => intro iter msgs; simp [execLoop]
  | succ f ih =>
    intro iter msgs
    cases h : oracle iter with
    | error e =>
      rw [execLoop_step_error tools oracle f iter msgs e h]
      simp
    | ok resp =>
      cases hc : resp.toolCalls with
      | none =>
        rw [execLoop_step_finish tools oracle f iter msgs resp h hc]
        simp
      | some calls =>
        by_cases hl : 0 < calls.length
        · rw [execLoop_step_toolCalls tools oracle f iter msgs resp calls h hc hl]
          have := ih (iter + 1) (dispatchCalls tools resp.content calls msgs)
          simp only
          omega
        · rw [execLoop, h]
          simp [hc, hl]

/-- A completion outcome that carries at least one tool call. -/
def respHasToolCalls (r : Except String CompletionResponse) : Prop :=
  ∃ resp calls, r = .ok resp ∧ resp.toolCalls = some calls ∧ 0 < calls.length

/-- When every response in the window carries tool calls, the loop exhausts
its fuel and fails with the max-iterations error. -/
theorem execLoop_exhaust (tools : ToolRegistry)
    (oracle : Nat → Except String CompletionResponse) (fuel : Nat) :
    ∀ iter msgs, (∀ i, i < fuel → respHasToolCalls (oracle (iter + i))) →
      (execLoop tools oracle fuel iter msgs).result =
          ⟨false, none, some "Max iterations reached without completion"⟩ ∧
        (execLoop tools oracle fuel iter msgs).status = .failed ∧
        (execLoop tools oracle fuel iter msgs).requests = fuel := by
  induction fuel with
  | zero => intro iter msgs _; simp [execLoop]
  | succ f ih =>
    intro iter msgs hall
    obtain ⟨resp, calls, h, hc, hl⟩ := by
      have := hall 0 (by omega)
      simpa using this
    rw [execLoop_step_toolCalls tools oracle f iter msgs resp calls h hc hl]
    have hall2 : ∀ i, i < f → respHasToolCalls (oracle (iter + 1 + i)) := by
      intro i hi
      have := hall (i + 1) (by omega)
      simpa [Nat.add_assoc, Nat.add_comm 1 i] using this
    have := ih (iter + 1) (dispatchCalls tools resp.content calls msgs) hall2
    simp only
    exact ⟨this.1, this.2.1, by omega⟩

/-- C3: one `execute` call issues at most 10 (the default cap) completion
requests; when all 10 responses carry tool calls, the task fails with the
dedicated max-iterations error message — produced by the loop bound itself,
with every provider call having succeeded, hence distinct from a provider
error (which would carry the thrown message instead, `execLoop_step_error`). -/
theorem execute_iteration_cap (tools : ToolRegistry)
    (oracle : Nat → Except String CompletionResponse) (sys : String)
    (hist : List Message) (task : HTask) :
    (execute tools oracle sys hist task).requests ≤ 10 ∧
    ((∀ i, i < 10 → respHasToolCalls (oracle i)) →
      (execute tools oracle sys hist task).result.success = false ∧
      (execute tools oracle sys hist task).result.error =
        some "Max iterations reached without completion" ∧
      (execute tools oracle sys hist task).status = .failed) := by
  constructor
  · exact execLoop_requests_le tools oracle maxIterations 0 _
  · intro hall
    have := execLoop_exhaust tools oracle maxIterations 0
      (buildMessages sys hist task) (by simpa [maxIterations] using hall)
    unfold execute
    exact ⟨by rw [this.1], by rw [this.1], this.2.1⟩

/-- Witness for C3: a registry-less agent against a model that always asks for
the same tool call exhausts the cap. -/
theorem execute_iteration_cap_witness :
    (execute [] (fun _ => .ok ⟨"loop", some [⟨"id1", "t", .obj []⟩], .tool_calls⟩)
        "sys" [] ⟨"t", "d", .pending, none⟩).requests ≤ 10 ∧
    ((execute [] (fun _ => .ok ⟨"loop", some [⟨"id1", "t", .obj []⟩], .tool_calls⟩)
        "sys" [] ⟨"t", "d", .pending, none⟩).result.success = false ∧
      (execute [] (fun _ => .ok ⟨"loop", some [⟨"id1", "t", .obj []⟩], .tool_calls⟩)
        "sys" [] ⟨"t", "d", .pending, none⟩).result.error =
          some "Max iterations reached without completion" ∧
      (execute [] (fun _ => .ok ⟨"loop", some [⟨"id1", "t", .obj []⟩], .tool_calls⟩)
        "sys" [] ⟨"t", "d", .pending, none⟩).status = .failed) := by
  have h := execute_iteration_cap [] (fun _ => .ok ⟨"loop", some [⟨"id1", "t", .obj []⟩], .tool_calls⟩)
    "sys" [] ⟨"t", "d", .pending, none⟩
  exact ⟨h.1, h.2 (fun i _ => ⟨_, _, rfl, rfl, by decide⟩)⟩

/-- C2 counterexample: on a response carrying the two calls `id1`/`id2`, the
loop body appends TWO assistant/tool message pairs — one per call, each
assistant message carrying a single call — and no message in the entire run
carries both calls at once, contradicting the claimed single assistant
message with all n calls. -/
theorem loop_two_calls_counterexample :
    (execLoop [] (fun i => if i = 0 then
        .ok ⟨"w", some [⟨"id1", "a", .obj []⟩, ⟨"id2", "b", .obj []⟩], .tool_calls⟩
      else .ok ⟨"done", none, .stop⟩) maxIterations 0 []).messages =
      [assistantToolCallMsg "w" ⟨"id1", "a", .obj []⟩,
        toolResultMsg ⟨"id1", false, none, some "Unknown tool: a"⟩,
        assistantToolCallMsg "w" ⟨"id2", "b", .obj []⟩,
        toolResultMsg ⟨"id2", false, none, some "Unknown tool: b"⟩] ∧
    ∀ m ∈ (execLoop [] (fun i => if i = 0 then
        .ok ⟨"w", some [⟨"id1", "a", .obj []⟩, ⟨"id2", "b", .obj []⟩], .tool_calls⟩
      else .ok ⟨"done", none, .stop⟩) maxIterations 0 []).messages,
      m.toolCalls ≠ some [⟨"id1", "a", .obj []⟩, ⟨"id2", "b", .obj []⟩] := by
  refine ⟨rfl, ?_⟩
  intro m hm
  have hms : (execLoop [] (fun i => if i = 0 then
        .ok ⟨"w", some [⟨"id1", "a", .obj []⟩, ⟨"id2", "b", .obj []⟩], .tool_calls⟩
      else .ok ⟨"done", none, .stop⟩) maxIterations 0 []).messages =
      [assistantToolCallMsg "w" ⟨"id1", "a", .obj []⟩,
        toolResultMsg ⟨"id1", false, none, some "Unknown tool: a"⟩,
        assistantToolCallMsg "w" ⟨"id2", "b", .obj []⟩,
        toolResultMsg ⟨"id2", false, none, some "Unknown tool: b"⟩] := rfl
  rw [hms] at hm
  simp only [List.mem_cons, List.not_mem_nil, or_false] at hm
  rcases hm with rfl | rfl | rfl | rfl <;>
    simp [assistantToolCallMsg, toolResultMsg]

/-- Helper: the loop step on a tool-call response appends one assistant/tool
message pair per call (flatMap form), then recurses. -/
theorem execLoop_step_pairs (tools : ToolRegistry)
    (oracle : Nat → Except String CompletionResponse) (fuel iter : Nat)
    (msgs : List Message) (resp : CompletionResponse) (calls : List ToolCall)
    (h : oracle iter = .ok resp) (hc : resp.toolCalls = some calls)
    (hl : 0 < calls.length) :
    execLoop tools oracle (fuel + 1) iter msgs =
      ⟨(execLoop tools oracle fuel (iter + 1)
          (msgs ++ calls.flatMap fun c =>
            [assistantToolCallMsg resp.content c, toolResultMsg (executeTool tools c)])).result,
        (execLoop tools oracle fuel (iter + 1)
          (msgs ++ calls.flatMap fun c =>
            [assistantToolCallMsg resp.content c, toolResultMsg (executeTool tools c)])).messages,
        (execLoop tools oracle fuel (iter + 1)
          (msgs ++ calls.flatMap fun c =>
            [assistantToolCallMsg resp.content c, toolResultMsg (executeTool tools c)])).requests + 1,
        (execLoop tools oracle fuel (iter + 1)
          (msgs ++ calls.flatMap fun c =>
            [assistantToolCallMsg resp.content c, toolResultMsg (executeTool tools c)])).status⟩ := by
  rw [execLoop_step_toolCalls tools oracle fuel iter msgs resp calls h hc hl,
    dispatchCalls_eq_flatMap]

/-- C2 amended: after a completion response with n ≥ 1 tool calls, the loop
appends, per dispatched call in order, one assistant message (response
content + that single call) and one tool message (result output/error + the
`ToolResult`) — n pairs in all — before the next iteration runs on the
extended list. -/
theorem loop_appends_pair_per_call (tools : ToolRegistry)
    (oracle : Nat → Except String CompletionResponse) (fuel iter : Nat)
    (msgs : List Message) (resp : CompletionResponse) (calls : List ToolCall)
    (h : oracle iter = .ok resp) (hc : resp.toolCalls = some calls)
    (hl : 0 < calls.length) :
    execLoop tools oracle (fuel + 1) iter msgs =
      ⟨(execLoop tools oracle fuel (iter + 1)
          (msgs ++ calls.flatMap fun c =>
            [assistantToolCallMsg resp.content c, toolResultMsg (executeTool tools c)])).result,
        (execLoop tools oracle fuel (iter + 1)
          (msgs ++ calls.flatMap fun c =>
            [assistantToolCallMsg resp.content c, toolResultMsg (executeTool tools c)])).messages,
        (execLoop tools oracle fuel (iter + 1)
          (msgs ++ calls.flatMap fun c =>
            [assistantToolCallMsg resp.content c, toolResultMsg (executeTool tools c)])).requests + 1,
        (execLoop tools oracle fuel (iter + 1)
          (msgs ++ calls.flatMap fun c =>
            [assistantToolCallMsg resp.content c, toolResultMsg (executeTool tools c)])).status⟩ :=
  execLoop_step_pairs tools oracle fuel iter msgs resp calls h hc hl

/-- Witness for the amended C2 at the concrete two-call response. -/
theorem loop_appends_pair_per_call_witness :
    execLoop [] (fun i => if i = 0 then
        .ok ⟨"w", some [⟨"id1", "a", .obj []⟩, ⟨"id2", "b", .obj []⟩], .tool_calls⟩
      else .ok ⟨"done", none, .stop⟩) (9 + 1) 0 [] =
      ⟨(execLoop [] (fun i => if i = 0 then
          .ok ⟨"w", some [⟨"id1", "a", .obj []⟩, ⟨"id2", "b", .obj []⟩], .tool_calls⟩
        else .ok ⟨"done", none, .stop⟩) 9 1
          ([] ++ [⟨"id1", "a", .obj []⟩, ⟨"id2", "b", .obj []⟩].flatMap fun c =>
            [assistantToolCallMsg "w" c, toolResultMsg (executeTool [] c)])).result,
        (execLoop [] (fun i => if i = 0 then
          .ok ⟨"w", some [⟨"id1", "a", .obj []⟩, ⟨"id2", "b", .obj []⟩], .tool_calls⟩
        else .ok ⟨"done", none, .stop⟩) 9 1
          ([] ++ [⟨"id1", "a", .obj []⟩, ⟨"id2", "b", .obj []⟩].flatMap fun c =>
            [assistantToolCallMsg "w" c, toolResultMsg (executeTool [] c)])).messages,
        (execLoop [] (fun i => if i = 0 then
          .ok ⟨"w", some [⟨"id1", "a", .obj []⟩, ⟨"id2", "b", .obj []⟩], .tool_calls⟩
        else .ok ⟨"done", none, .stop⟩) 9 1
          ([] ++ [⟨"id1", "a", .obj []⟩, ⟨"id2", "b", .obj []⟩].flatMap fun c =>
            [assistantToolCallMsg "w" c, toolResultMsg (executeTool [] c)])).requests + 1,
        (execLoop [] (fun i => if i = 0 then
          .ok ⟨"w", some [⟨"id1", "a", .obj []⟩, ⟨"id2", "b", .obj []⟩], .tool_calls⟩
        else .ok ⟨"done", none, .stop⟩) 9 1
          ([] ++ [⟨"id1", "a", .obj []⟩, ⟨"id2", "b", .obj []⟩].flatMap fun c =>
            [assistantToolCallMsg "w" c, toolResultMsg (executeTool [] c)])).status⟩ :=
  loop_appends_pair_per_call [] _ 9 0 []
    ⟨"w", some [⟨"id1", "a", .obj []⟩, ⟨"id2", "b", .obj []⟩], .tool_calls⟩
    [⟨"id1", "a", .obj []⟩, ⟨"id2", "b", .obj []⟩] rfl rfl (by decide)

/-- C4 counterexample: a registered tool whose body throws an exception whose
message is the empty string yields a contained `ToolResult` with
`success = false` but with `error = some ""` — an EMPTY error string —
refuting the claimed non-empty error for every raising tool. -/
theorem executeTool_empty_message_counterexample :
    executeTool [("t", ⟨"t", "", .string, fun _ => .error ""⟩)] ⟨"id1", "t", .obj []⟩ =
      ⟨"id1", false, none, some ""⟩ ∧
    ("" : String).length = 0 := ⟨rfl, rfl⟩

/-- C4 amended: `executeTool` never throws — an unknown tool name yields a
contained failure with the (always non-empty) error `Unknown tool: <name>`,
and a tool body that raises yields a contained failure whose error is exactly
the exception message (non-empty whenever the message is); in either case the
loop still appends the tool message carrying that `ToolResult` and proceeds
to the next iteration instead of aborting the task. -/
theorem executeTool_contained_failures (tools : ToolRegistry) (c : ToolCall) :
    (List.lookup c.name tools = none →
      executeTool tools c = ⟨c.id, false, none, some ("Unknown tool: " ++ c.name)⟩ ∧
      ("Unknown tool: " ++ c.name) ≠ "") ∧
    (∀ tool m, List.lookup c.name tools = some tool →
      tool.execute c.arguments = .error m →
      executeTool tools c = ⟨c.id, false, none, some m⟩) ∧
    (∀ oracle : Nat → Except String CompletionResponse, ∀ content out : String,
      oracle 0 = .ok ⟨content, some [c], .tool_calls⟩ →
      oracle 1 = .ok ⟨out, none, .stop⟩ →
      ∀ msgs : List Message,
        execLoop tools oracle maxIterations 0 msgs =
          ⟨⟨true, some out, none⟩,
            msgs ++ [assistantToolCallMsg content c, toolResultMsg (executeTool tools c)],
            2, .completed⟩) := by
  refine ⟨?_, ?_, ?_⟩
  · intro hnone
    constructor
    · unfold executeTool
      rw [hnone]
    · intro hempty
      have hlen := congrArg String.length hempty
      rw [String.length_append] at hlen
      have h14 : ("Unknown tool: " : String).length = 14 := by decide
      have h0 : ("" : String).length = 0 := by decide
      omega
  · intro tool m hsome herr
    simp [executeTool, hsome, herr]
  · intro oracle content out h0 h1 msgs
    have hstep := execLoop_step_pairs tools oracle 9 0 msgs
      ⟨content, some [c], .tool_calls⟩ [c] h0 rfl (by simp)
    have hfin := execLoop_step_finish tools oracle 8 1
      (msgs ++ [c].flatMap fun c2 =>
        [assistantToolCallMsg content c2, toolResultMsg (executeTool tools c2)])
      ⟨out, none, .stop⟩ h1 rfl
    show execLoop tools oracle (9 + 1) 0 msgs = _
    rw [hstep, hfin]
    simp

/-- Witness for the amended C4: an empty registry (unknown tool) and a
two-step oracle that finishes after the contained failure. -/
theorem executeTool_contained_failures_witness :
    (executeTool [] ⟨"id1", "ghost", .obj []⟩ =
        ⟨"id1", false, none, some ("Unknown tool: " ++ "ghost")⟩ ∧
      ("Unknown tool: " ++ "ghost") ≠ "") ∧
    execLoop [] (fun i => if i = 0 then
        .ok ⟨"w", some [⟨"id1", "ghost", .obj []⟩], .tool_calls⟩
      else .ok ⟨"done", none, .stop⟩) maxIterations 0 [] =
      ⟨⟨true, some "done", none⟩,
        [] ++ [assistantToolCallMsg "w" ⟨"id1", "ghost", .obj []⟩,
          toolResultMsg (executeTool [] ⟨"id1", "ghost", .obj []⟩)],
        2, .completed⟩ := by
  have h := executeTool_contained_failures [] ⟨"id1", "ghost", .obj []⟩
  exact ⟨h.1 rfl, h.2.2 _ "w" "done" rfl rfl []⟩

/-- C7: an explicit `[work]`/`[personal]` tag short-circuits classification:
the result is `quickClassify` of the tag-stripped input with confidence
exactly 1.0 and the tagged type, for every input (whatever keywords it
contains) and independently of the model oracle (neither the heuristic
scoring nor the model enters the type decision). -/
theorem explicit_tag_classification (input : String) (t : AgentType)
    (modelId : Option String) (resp : Except String String)
    (h : hasExplicitAgentType input = some t) :
    processClassification input modelId resp =
      .computed (quickClassify (extractTags input).2 t) ∧
    (quickClassify (extractTags input).2 t).intent.confidence = 1 ∧
    (quickClassify (extractTags input).2 t).intent.type = t.toIntentType ∧
    ∀ (modelId2 : Option String) (resp2 : Except String String),
      processClassification input modelId2 resp2 =
        processClassification input modelId resp := by
  unfold processClassification classifyTask
  rw [h]
  exact ⟨rfl, rfl, rfl, fun _ _ => rfl⟩

/-- Witness for C7: a `[work]`-tagged input whose remaining words are all
personal keywords still classifies as work with confidence 1. -/
theorem explicit_tag_classification_witness :
    processClassification "[work] plan the family vacation" (some "m") (.error "boom") =
      .computed (quickClassify (extractTags "[work] plan the family vacation").2 .work) ∧
    (quickClassify (extractTags "[work] plan the family vacation").2 .work).intent.confidence = 1 ∧
    (quickClassify (extractTags "[work] plan the family vacation").2 .work).intent.type =
      AgentType.work.toIntentType :=
  ⟨(explicit_tag_classification "[work] plan the family vacation" .work (some "m")
      (.error "boom") (by decide)).1,
    (explicit_tag_classification "[work] plan the family vacation" .work (some "m")
      (.error "boom") (by decide)).2.1,
    (explicit_tag_classification "[work] plan the family vacation" .work (some "m")
      (.error "boom") (by decide)).2.2.1⟩

/-- Unfolding of the heuristic confidence (the exact JS expression
`Math.min(0.9, 0.5 + confidence * 0.4)` with
`confidence = |w−p| / Math.max(w+p, 1)`). -/
theorem heuristicClassify_confidence_eq (input : String) :
    (heuristicClassify input).intent.confidence =
      min 0.9 (0.5 + (|(workScore input : ℚ) - (personalScore input : ℚ)| /
        ((max (workScore input + personalScore input) 1 : ℕ) : ℚ)) * 0.4) := rfl

/-- Unfolding of the heuristic type decision. -/
theorem heuristicClassify_type_eq (input : String) :
    (heuristicClassify input).intent.type =
      (if personalScore input < workScore input then .work
       else if workScore input < personalScore input then .personal
       else .unclear) := rfl

/-- C8: the heuristic classifier decides the type by strict score comparison
(tie ⟹ unclear) and computes confidence exactly as
`min(0.9, 0.5 + 0.4·|w−p|/max(w+p,1))`; in particular 3 work matches and 0
personal matches give confidence 0.9 and type work. -/
theorem heuristicClassify_formula (input : String) :
    ((heuristicClassify input).intent.type = .work ↔
      personalScore input < workScore input) ∧
    ((heuristicClassify input).intent.type = .personal ↔
      workScore input < personalScore input) ∧
    ((heuristicClassify input).intent.type = .unclear ↔
      workScore input = personalScore input) ∧
    (heuristicClassify input).intent.confidence =
      min (9/10 : ℚ) (1/2 + (2/5) *
        (|(workScore input : ℚ) - (personalScore input : ℚ)| /
          ((max (workScore input + personalScore input) 1 : ℕ) : ℚ))) ∧
    (workScore input = 3 → personalScore input = 0 →
      (heuristicClassify input).intent.confidence = 9/10 ∧
      (heuristicClassify input).intent.type = .work) := by
  refine ⟨?_, ?_, ?_, ?_, ?_⟩
  · rcases Nat.lt_trichotomy (personalScore input) (workScore input) with h | h | h
    · rw [heuristicClassify_type_eq, if_pos h]
      simp [h]
    · rw [heuristicClassify_type_eq, h]
      simp
    · rw [heuristicClassify_type_eq, if_neg (Nat.lt_asymm h), if_pos h]
      simp [Nat.lt_asymm h]
  · rcases Nat.lt_trichotomy (personalScore input) (workScore input) with h | h | h
    · rw [heuristicClassify_type_eq, if_pos h]
      simp [Nat.lt_asymm h]
    · rw [heuristicClassify_type_eq, h]
      simp
    · rw [heuristicClassify_type_eq, if_neg (Nat.lt_asymm h), if_pos h]
      simp [h]
  · rcases Nat.lt_trichotomy (personalScore input) (workScore input) with h | h | h
    · rw [heuristicClassify_type_eq, if_pos h]
      constructor
      · intro hab; cases hab
      · intro hab; omega
    · rw [heuristicClassify_type_eq, h]
      simp
    · rw [heuristicClassify_type_eq, if_neg (Nat.lt_asymm h), if_pos h]
      constructor
      · intro hab; cases hab
      · intro hab; omega
  · rw [heuristicClassify_confidence_eq]
    congr 1
    · norm_num
    · rw [mul_comm]
      norm_num
  · intro h3 h0
    constructor
    · rw [heuristicClassify_confidence_eq, h3, h0]
      norm_num
    · rw [heuristicClassify_type_eq, h3, h0]
      simp

/-- Witness for C8: the input `deploy the api bug` matches exactly the three
work indicators `deploy`, `api`, `bug` and no personal indicator. -/
theorem heuristicClassify_formula_witness :
    (heuristicClassify "deploy the api bug").intent.confidence = 9/10 ∧
    (heuristicClassify "deploy the api bug").intent.type = .work :=
  (heuristicClassify_formula "deploy the api bug").2.2.2.2 (by decide) (by decide)

/-- C5: `classifyTask` is a total function of its inputs (the source wraps the
model call and JSON parsing in try/catch, so nothing escapes); with no
explicit tag it is fail-open — a missing model, a thrown model call, or an
unparseable response (no brace-span match, or the matched span failing
`JSON.parse`) all return exactly the stage-1 heuristic result. -/
theorem classifyTask_fail_open (input : String) (modelId : Option String)
    (resp : Except String String) :
    (classifyTask input none none resp = .computed (heuristicClassify input)) ∧
    (∀ e, resp = .error e →
      classifyTask input none modelId resp = .computed (heuristicClassify input)) ∧
    (∀ content, resp = .ok content →
      (extractJsonSpan content.data = none ∨
        ∀ span, extractJsonSpan content.data = some span → jsonParse ⟨span⟩ = none) →
      classifyTask input none modelId resp = .computed (heuristicClassify input)) := by
  unfold classifyTask
  refine ⟨?_, ?_, ?_⟩
  · dsimp only
    split
    · rfl
    · rfl
  · intro e hresp
    subst hresp
    dsimp only
    split
    · rfl
    · cases modelId <;> rfl
  · intro content hresp hbad
    subst hresp
    dsimp only
    split
    · rfl
    · cases modelId with
      | none => rfl
      | some mid =>
        cases hspan : extractJsonSpan content.data with
        | none => simp [hspan]
        | some span =>
          rcases hbad with hnone | hparse
          · rw [hspan] at hnone
            cases hnone
          · have hp := hparse span hspan
            simp [hspan, hp]

/-- Witness for C5: no model configured, and separately a configured model
returning brace-less prose, both fall back to the heuristic. -/
theorem classifyTask_fail_open_witness :
    (classifyTask "meh" none none (.ok "whatever") =
      .computed (heuristicClassify "meh")) ∧
    (classifyTask "meh" none (some "m") (.ok "plain prose answer") =
      .computed (heuristicClassify "meh")) :=
  ⟨(classifyTask_fail_open "meh" none (.ok "whatever")).1,
    (classifyTask_fail_open "meh" (some "m") (.ok "plain prose answer")).2.2
      "plain prose answer" rfl (Or.inl (by decide))⟩

/-- When the heuristic is not confident and a model is configured, the
classifier takes the model path: match the brace span, parse it, fall back on
failure. -/
theorem classifyTask_model_path (input mid content : String)
    (hconf : ¬((heuristicClassify input).intent.confidence > 0.8)) :
    classifyTask input none (some mid) (.ok content) =
      (match extractJsonSpan content.data with
       | none => .computed (heuristicClassify input)
       | some span =>
         match jsonParse ⟨span⟩ with
         | none => .computed (heuristicClassify input)
         | some parsed => .fromModel parsed) := by
  unfold classifyTask
  dsimp only
  rw [if_neg hconf]

/-- A score tie puts the heuristic confidence at exactly 1/2. -/
theorem tie_confidence (input : String)
    (htie : workScore input = personalScore input) :
    (heuristicClassify input).intent.confidence = 1/2 := by
  rw [heuristicClassify_confidence_eq, htie]
  norm_num

/-- C6 counterexample: the model response `x{"a":"b"}y}` contains the balanced
JSON object `{"a":"b"}` (which parses, third conjunct) followed by prose with
a further `}`; the greedy regex span runs from the first `{` to the LAST `}`
(first conjunct), is not that object, fails to parse, and the classifier
falls back to the heuristic instead of returning the parsed object (fourth
conjunct) — refuting first-balanced-object extraction. -/
theorem classifier_greedy_span_counterexample :
    extractJsonSpan "x\x7b\"a\":\"b\"\x7dy\x7d".data = some "\x7b\"a\":\"b\"\x7dy\x7d".data ∧
    "\x7b\"a\":\"b\"\x7dy\x7d".data ≠ "\x7b\"a\":\"b\"\x7d".data ∧
    jsonParse "\x7b\"a\":\"b\"\x7d" = some (.obj [("a", .str "b")]) ∧
    classifyTask "meh" none (some "model") (.ok "x\x7b\"a\":\"b\"\x7dy\x7d") =
      .computed (heuristicClassify "meh") := by
  refine ⟨rfl, by decide, rfl, ?_⟩
  have htie : workScore "meh" = personalScore "meh" := by decide
  have hconf : ¬((heuristicClassify "meh").intent.confidence > 0.8) := by
    rw [tie_confidence "meh" htie]
    norm_num
  rw [classifyTask_model_path "meh" "model" "x\x7b\"a\":\"b\"\x7dy\x7d" hconf]
  rfl

/-- Ends-with-`'}'` decomposition of a printed field list. -/
theorem printFields_concat (fls : List (String × Json)) :
    ∃ pref, printFields fls = pref ++ ['}'] := by
  induction fls with
  | nil => exact ⟨[], rfl⟩
  | cons kv t ih =>
    obtain ⟨k, v⟩ := kv
    cases t with
    | nil =>
      refine ⟨'"' :: escapeChars k.data ++ '"' :: ':' :: printJson v, ?_⟩
      rw [printFields]
    | cons kv2 t2 =>
      obtain ⟨pref, hpref⟩ := ih
      refine ⟨'"' :: escapeChars k.data ++ '"' :: ':' :: printJson v ++ ',' :: pref, ?_⟩
      rw [printFields, hpref]
      simp

/-- The greedy span equals the serialized object exactly when the prose
before it has no `'{'` and the prose after it has no `'}'`. -/
theorem extractJsonSpan_clean (pre post : List Char) (fs : List (String × Json))
    (hpre : '{' ∉ pre) (hpost : '}' ∉ post) :
    extractJsonSpan (pre ++ printJson (.obj fs) ++ post) = some (printJson (.obj fs)) := by
  obtain ⟨pref, hpref⟩ := printFields_concat fs
  have hobj : printJson (.obj fs) = '{' :: (pref ++ ['}']) := by
    simp [printJson, hpref]
  have hdrop1 : (pre ++ (printJson (.obj fs) ++ post)).dropWhile (fun c => ¬c = '{') =
      printJson (.obj fs) ++ post := by
    refine (takeWhile_append_all ?_ ?_).2
    · intro c hc
      simp only [decide_eq_true_eq]
      intro heq
      exact hpre (heq ▸ hc)
    · intro c hc
      rw [hobj] at hc
      simp only [List.cons_append, List.head?_cons, Option.some.injEq] at hc
      subst hc
      decide
  have hdrop2 : (post.reverse ++ ('}' :: (pref.reverse ++ ['{']))).dropWhile
      (fun c => ¬c = '}') = '}' :: (pref.reverse ++ ['{']) := by
    refine (takeWhile_append_all ?_ ?_).2
    · intro c hc
      simp only [decide_eq_true_eq]
      intro heq
      exact hpost (heq ▸ (List.mem_reverse.mp hc))
    · intro c hc
      simp only [List.head?_cons, Option.some.injEq] at hc
      subst hc
      decide
  have hrev : (printJson (.obj fs) ++ post).reverse =
      post.reverse ++ ('}' :: (pref.reverse ++ ['{'])) := by
    rw [hobj]
    simp
  unfold extractJsonSpan
  rw [List.append_assoc, hdrop1]
  have hne : printJson (.obj fs) ++ post = '{' :: ((pref ++ ['}']) ++ post) := by
    rw [hobj]; simp
  rw [hne]
  simp only
  rw [← hne, hrev, hdrop2]
  simp only
  rw [hobj]
  simp

/-- C6 amended: on the model path the classifier extracts the span from the
first `'{'` to the LAST `'}'` of the response text and parses that; it
therefore recovers a balanced JSON object exactly when the surrounding prose
contains no `'{'` before it and no `'}'` after it — not for arbitrary prose. -/
theorem classifier_extracts_greedy_span (input mid : String) (pre post : List Char)
    (fs : List (String × Json))
    (hpre : '{' ∉ pre) (hpost : '}' ∉ post)
    (htie : workScore input = personalScore input) :
    classifyTask input none (some mid) (.ok ⟨pre ++ printJson (.obj fs) ++ post⟩) =
      .fromModel (.obj fs) := by
  have hconf : ¬((heuristicClassify input).intent.confidence > 0.8) := by
    rw [tie_confidence input htie]
    norm_num
  rw [classifyTask_model_path input mid _ hconf]
  have hdata : (⟨pre ++ printJson (.obj fs) ++ post⟩ : String).data =
      pre ++ printJson (.obj fs) ++ post := rfl
  rw [hdata, extractJsonSpan_clean pre post fs hpre hpost]
  have hstr : (⟨printJson (.obj fs)⟩ : String) = jsonStringify (.obj fs) := rfl
  simp only [hstr, jsonParse_stringify]

/-- Witness for the amended C6 at a concrete prose-wrapped object. -/
theorem classifier_extracts_greedy_span_witness :
    classifyTask "meh" none (some "m")
      (.ok ⟨"note: ".data ++ printJson (.obj [("a", .str "b")]) ++ " end".data⟩) =
      .fromModel (.obj [("a", .str "b")]) :=
  classifier_extracts_greedy_span "meh" "m" "note: ".data " end".data
    [("a", .str "b")] (by decide) (by decide) (by decide)

theorem toolCall_eta (tc : ToolCall) : (⟨tc.id, tc.name, tc.arguments⟩ : ToolCall) = tc := rfl

/-- C9: an assistant message with two tool calls converts into the OpenAI wire
shape (serialized argument strings) and into the Anthropic wire shape
(tool_use blocks), and each backend's response-side conversion recovers
exactly the original two calls — ids, names and argument payloads. -/
theorem assistant_two_toolcalls_roundtrip (m : Message) (c1 c2 : ToolCall)
    (hrole : m.role = .assistant) (hcalls : m.toolCalls = some [c1, c2]) :
    (∃ w, messagesToOpenAI [m] = [w] ∧
      ∃ wtcs, w.toolCalls = some wtcs ∧ oaiParseToolCalls wtcs = .ok [c1, c2]) ∧
    (∃ blocks, (messagesToAnthropic [m]).2 = [⟨"assistant", .inr blocks⟩] ∧
      (anthropicExtractContent blocks).2 = [c1, c2]) := by
  obtain ⟨role, content, toolCalls, toolResults⟩ := m
  simp only at hrole hcalls
  subst hrole
  subst hcalls
  constructor
  · refine ⟨⟨"assistant", if content = "" then none else some content, none,
      some [⟨c1.id, c1.name, jsonStringify c1.arguments⟩,
        ⟨c2.id, c2.name, jsonStringify c2.arguments⟩]⟩, ?_, ?_⟩
    · simp [messagesToOpenAI]
    · refine ⟨_, rfl, ?_⟩
      simp [oaiParseToolCalls, jsonParse_stringify, toolCall_eta]
  · refine ⟨(if content = "" then [] else [.text content]) ++
      [.toolUse c1.id c1.name c1.arguments, .toolUse c2.id c2.name c2.arguments], ?_, ?_⟩
    · simp [messagesToAnthropic]
    · by_cases hc : content = ""
      · simp [hc, anthropicExtractContent, toolCall_eta]
      · simp [hc, anthropicExtractContent, toolCall_eta]

/-- Witness for C9 at a concrete two-call assistant message. -/
theorem assistant_two_toolcalls_roundtrip_witness :
    (∃ w, messagesToOpenAI
        [⟨.assistant, "hi", some [⟨"a1", "t1", .obj [("x", .num 1)]⟩,
          ⟨"a2", "t2", .arr [.str "q"]⟩], none⟩] = [w] ∧
      ∃ wtcs, w.toolCalls = some wtcs ∧
        oaiParseToolCalls wtcs =
          .ok [⟨"a1", "t1", .obj [("x", .num 1)]⟩, ⟨"a2", "t2", .arr [.str "q"]⟩]) ∧
    (∃ blocks, (messagesToAnthropic
        [⟨.assistant, "hi", some [⟨"a1", "t1", .obj [("x", .num 1)]⟩,
          ⟨"a2", "t2", .arr [.str "q"]⟩], none⟩]).2 = [⟨"assistant", .inr blocks⟩] ∧
      (anthropicExtractContent blocks).2 =
        [⟨"a1", "t1", .obj [("x", .num 1)]⟩, ⟨"a2", "t2", .arr [.str "q"]⟩]) :=
  assistant_two_toolcalls_roundtrip
    ⟨.assistant, "hi", some [⟨"a1", "t1", .obj [("x", .num 1)]⟩,
      ⟨"a2", "t2", .arr [.str "q"]⟩], none⟩
    ⟨"a1", "t1", .obj [("x", .num 1)]⟩ ⟨"a2", "t2", .arr [.str "q"]⟩ rfl rfl
